import Mathlib

/-!
Verification of the lattice-parameter sweep scripts of this repository.

The two scripts are embedded shallowly over `ℚ` (exact rational arithmetic in
place of IEEE doubles; all decimal constants of the source are exact decimal
fractions, so the embedding is the standard idealisation):

* `generate_files` models `calculations/generate_files.py`: it produces the
  list of (filename, content) pairs written by the script, in order.
* `analyze` models `calculations/analyze_results.py`: it consumes a directory
  listing (filename, content) and produces either an early exit, a crash
  (an uncaught `ValueError` from `float`), or the fitted result.

The two regular expressions of the analyzer are hand-embedded matchers.  Both
patterns alternate maximal runs of disjoint character classes with literals,
so the greedy matcher with the one backtracking point of `cu_a([\d.]+)\.out`
(the run may swallow the `.` of `.out`) is exactly Python's leftmost match.
-/

set_option allowUnsafeReducibility true in
attribute [semireducible] Rat.add Rat.mul Rat.inv Rat.sub Rat.neg

set_option maxRecDepth 8000

/-! ### Decimal fixed-point formatting, Python `format(x, '.Nf')` -/

/-- Round a rational to the nearest integer, ties to the even integer; this is
the rounding used by Python float formatting (on the idealised exact value). -/
def roundHalfEven (q : ℚ) : ℤ :=
  let f := ⌊q⌋
  let r := q - f
  if r < 1/2 then f else if 1/2 < r then f + 1 else if f % 2 = 0 then f else f + 1

/-- Left-pad a string with zeros up to width `k`. -/
def padZeros (s : String) (k : ℕ) : String :=
  String.mk (List.replicate (k - s.length) '0') ++ s

/-- Python `f"{q:.precf}"` on the exact rational value `q`. -/
def fmtFixed (prec : ℕ) (q : ℚ) : String :=
  let n := roundHalfEven (q * (10 : ℚ) ^ prec)
  let sign := if n < 0 then ("-") else ("")
  let m := n.natAbs
  let ip := m / 10 ^ prec
  let fp := m % 10 ^ prec
  if prec = 0 then sign ++ Nat.repr ip
  else sign ++ Nat.repr ip ++ (".") ++ padZeros (Nat.repr fp) prec

/-- The rational value `q` rounded to 3 decimal places (value, not string). -/
def round3 (q : ℚ) : ℚ := (roundHalfEven (q * 1000) : ℚ) / 1000

/-! ### numpy primitives used by both scripts -/

/-- `np.linspace(start, stop, num)`: `num` evenly spaced points, endpoints
included (`i * (stop - start) / (num - 1)` is exact in `ℚ`). -/
def linspace (start stop : ℚ) (num : ℕ) : List ℚ :=
  (List.range num).map (fun i : ℕ => start + (i : ℚ) * (stop - start) / ((num : ℚ) - 1))

/-- `np.argmin`: index of the first occurrence of the least element. -/
def argminIdx : List ℚ → ℕ
  | [] => 0
  | x :: xs =>
    if xs = [] then 0
    else if xs.getD (argminIdx xs) 0 < x then argminIdx xs + 1 else 0

/-- `arr.min()` of numpy on a nonempty array (`0` as a junk value on `[]`). -/
def npMin : List ℚ → ℚ
  | [] => 0
  | x :: xs => xs.foldl min x

/-- `arr.max()` of numpy on a nonempty array (`0` as a junk value on `[]`). -/
def npMax : List ℚ → ℚ
  | [] => 0
  | x :: xs => xs.foldl max x

/-! ### generate_files.py -/

/-- `ANG_TO_BOHR = 1.88972687777` (generate_files.py line 7). -/
def ANG_TO_BOHR : ℚ := 188972687777 / 100000000000

/-- `lattice_params_ang = np.linspace(2.2, 2.9, 12)` (generate_files.py line 10). -/
def lattice_params_ang : List ℚ := linspace (22/10) (29/10) 12

/-- The `input_template` of generate_files.py (lines 16-49), instantiated with
`a_ang` at the `{a_ang:.3f}` hole and `a_bohr` at the `{a_bohr:.8f}` hole. -/
def input_template (a_ang a_bohr : ℚ) : String :=
  ("&CONTROL\n  calculation = 'scf'\n  prefix = 'cu_sc_a") ++ fmtFixed 3 a_ang ++
  ("'\n  outdir = './tmp'\n  pseudo_dir = './pseudo'\n  verbosity = 'high'\n/\n\n") ++
  ("&SYSTEM\n  ibrav = 1\n  celldm(1) = ") ++ fmtFixed 8 a_bohr ++
  ("\n  nat = 1\n  ntyp = 1\n  ecutwfc = 21.46\n  occupations = 'smearing'\n") ++
  ("  smearing = 'mv'\n  degauss = 0.02\n  input_dft = 'PW91'\n/\n\n") ++
  ("&ELECTRONS\n  conv_thr = 1.0d-8\n  mixing_beta = 0.7\n/\n\n") ++
  ("ATOMIC_SPECIES\n  Cu  63.546  Cu.pw91-n-van_ak.UPF\n\n") ++
  ("ATOMIC_POSITIONS crystal\n  Cu  0.0  0.0  0.0\n\n") ++
  ("K_POINTS automatic\n  12 12 12  0 0 0\n")

/-- `input_filename = f'calculations/cu_a{a_ang:.3f}.in'` (generate_files.py line 59). -/
def input_filename (a_ang : ℚ) : String :=
  ("calculations/cu_a") ++ fmtFixed 3 a_ang ++ (".in")

/-- `output_filename = f'calculations/cu_a{a_ang:.3f}.out'` (generate_files.py line 60). -/
def output_filename (a_ang : ℚ) : String :=
  ("calculations/cu_a") ++ fmtFixed 3 a_ang ++ (".out")

/-- The files written by generate_files.py, in loop order (lines 54-63):
for each swept `a_ang`, the file `input_filename a_ang` with the template
instantiated at `a_ang` and `a_bohr = a_ang * ANG_TO_BOHR`. -/
def generate_files : List (String × String) :=
  lattice_params_ang.map (fun a_ang =>
    (input_filename a_ang, input_template a_ang (a_ang * ANG_TO_BOHR)))

/-! ### analyze_results.py: the two regular expressions -/

/-- Python `\s` on ASCII text: space, tab, newline, CR, vertical tab, form feed. -/
def wsChar (c : Char) : Bool :=
  c = ' ' || c = '\t' || c = '\n' || c = '\r' || c = Char.ofNat 11 || c = Char.ofNat 12

/-- The character class `[-\d.]` of the energy pattern. -/
def numChar (c : Char) : Bool := c.isDigit || c = '-' || c = '.'

/-- The character class `[\d.]` of the filename pattern. -/
def dotDigitChar (c : Char) : Bool := c.isDigit || c = '.'

/-- Attempt the pattern `!\s+total energy\s+=\s+([-\d.]+)\s+Ry` anchored at the
start of `cs`, returning the captured group.  Each `\s+` and the `[-\d.]+` are
taken as maximal runs; this equals Python's backtracking semantics because
every run is followed by a literal outside its own character class, so any
shorter run fails immediately. -/
def matchEnergyAt (cs : List Char) : Option (List Char) :=
  match cs with
  | '!' :: rest =>
    let s1 := rest.takeWhile wsChar
    let r1 := rest.dropWhile wsChar
    if s1 = [] then none
    else if r1.take 12 = ("total energy").data then
      let r2 := r1.drop 12
      let s2 := r2.takeWhile wsChar
      let r3 := r2.dropWhile wsChar
      if s2 = [] then none
      else
        match r3 with
        | '=' :: r4 =>
          let s3 := r4.takeWhile wsChar
          let r5 := r4.dropWhile wsChar
          if s3 = [] then none
          else
            let num := r5.takeWhile numChar
            let r6 := r5.dropWhile numChar
            if num = [] then none
            else
              let s4 := r6.takeWhile wsChar
              let r7 := r6.dropWhile wsChar
              if s4 = [] then none
              else if r7.take 2 = ("Ry").data then some num else none
        | _ => none
    else none
  | _ => none

/-- `re.search` of the energy pattern: leftmost match, scanning positions left
to right exactly as Python does. -/
def searchEnergy : List Char → Option (List Char)
  | [] => none
  | c :: cs =>
    match matchEnergyAt (c :: cs) with
    | some g => some g
    | none => searchEnergy cs

/-- Numeric value of a digit string (most significant first). -/
def digitsVal (cs : List Char) : ℕ :=
  cs.foldl (fun a c => a * 10 + (c.toNat - 48)) 0

/-- Python `float(s)` on an unsigned literal drawn from `[\d.]`: digits with at
most one dot, and at least one digit overall.  `none` models `ValueError`. -/
def pyFloatUnsigned (cs : List Char) : Option ℚ :=
  let ip := cs.takeWhile (fun c => c != '.')
  let rest := cs.dropWhile (fun c => c != '.')
  match rest with
  | [] => if ip ≠ [] ∧ ip.all Char.isDigit then some (digitsVal ip) else none
  | _ :: fp =>
    if (ip ≠ [] ∨ fp ≠ []) ∧ ip.all Char.isDigit ∧ fp.all Char.isDigit then
      some ((digitsVal ip : ℚ) + (digitsVal fp : ℚ) / 10 ^ fp.length)
    else none

/-- Python `float(s)` on a string drawn from `[-\d.]`; `none` models `ValueError`. -/
def pyFloat : List Char → Option ℚ
  | '-' :: rest => (pyFloatUnsigned rest).map (fun q => -q)
  | cs => pyFloatUnsigned cs

/-- Backtracking step of `([\d.]+)\.out`: the greedy run may have swallowed the
`.` of `.out`, so try capture lengths from `n` downward, longest first, exactly
as Python's backtracking does. -/
def tryLens (run rem : List Char) : ℕ → Option (List Char)
  | 0 => none
  | Nat.succ k =>
    if (run.drop (k + 1) ++ rem).take 4 = (".out").data then some (run.take (k + 1))
    else tryLens run rem k

/-- Attempt the pattern `cu_a([\d.]+)\.out` anchored at the start of `cs`. -/
def matchNameAt : List Char → Option (List Char)
  | 'c' :: 'u' :: '_' :: 'a' :: rest =>
    let run := rest.takeWhile dotDigitChar
    let rem := rest.dropWhile dotDigitChar
    if run = [] then none else tryLens run rem run.length
  | _ => none

/-- `re.search` of the filename pattern: leftmost match. -/
def searchName : List Char → Option (List Char)
  | [] => none
  | c :: cs =>
    match matchNameAt (c :: cs) with
    | some g => some g
    | none => searchName cs

/-! ### analyze_results.py: the pipeline -/

/-- `RY_TO_EV = 13.605693122994` (analyze_results.py line 28). -/
def RY_TO_EV : ℚ := 13605693122994 / 1000000000000

/-- `extract_energy` (analyze_results.py lines 8-16): leftmost match of
`!\s+total energy\s+=\s+([-\d.]+)\s+Ry` in the file content, group 1 through
`float`.  `.ok none` is Python's `None`; `.error ()` is an uncaught
`ValueError` from `float` on a capture such as `1.2.3`. -/
def extract_energy (content : String) : Except Unit (Option ℚ) :=
  match searchEnergy content.data with
  | none => .ok none
  | some g =>
    match pyFloat g with
    | none => .error ()
    | some v => .ok (some v)

/-- `glob.glob('calculations/cu_a*.out')` membership: literal prefix and
suffix with no path separator in the starred part. -/
def globMatch (name : String) : Bool :=
  let cs := name.data
  (cs.take 17 == ("calculations/cu_a").data) &&
  (decide (21 ≤ cs.length)) &&
  (cs.drop (cs.length - 4) == (".out").data) &&
  (((cs.drop 17).take (cs.length - 21)).all (fun c => c != '/'))

/-- Lexicographic comparison of code-point lists: Python string `<=`. -/
def charListLe : List Char → List Char → Bool
  | [], _ => true
  | _ :: _, [] => false
  | a :: s, b :: t => if a = b then charListLe s t else decide (a < b)

/-- Ordering of directory entries by filename, as `sorted()` on the glob. -/
def fileLe (f g : String × String) : Prop := charListLe f.1.data g.1.data = true

instance : DecidableRel fileLe :=
  fun f g => inferInstanceAs (Decidable (charListLe f.1.data g.1.data = true))

/-- `sorted(glob.glob('calculations/cu_a*.out'))` over a directory listing:
keep the entries matching the glob, then sort them by filename. -/
def sortedFiles (dir : List (String × String)) : List (String × String) :=
  List.insertionSort fileLe (dir.filter (fun f => globMatch f.1))

/-- The collection loop (analyze_results.py lines 36-46): for each file in
order, match the filename pattern, skip on no match, convert the capture with
`float` (an invalid capture raises), extract the energy (skip on `None`),
and record `(a_ang, energy * RY_TO_EV)`. -/
def collectE : List (String × String) → Except Unit (List (ℚ × ℚ))
  | [] => .ok []
  | (n, c) :: rest =>
    match searchName n.data with
    | none => collectE rest
    | some g =>
      match pyFloat g with
      | none => .error ()
      | some a =>
        match extract_energy c with
        | .error e => .error e
        | .ok none => collectE rest
        | .ok (some en) =>
          match collectE rest with
          | .error e => .error e
          | .ok l => .ok ((a, en * RY_TO_EV) :: l)

/-- Ordering of data points by lattice parameter: the `np.argsort` reorder of
lines 57-59 applied jointly to both arrays. -/
def pairLe (p q : ℚ × ℚ) : Prop := p.1 ≤ q.1

instance : DecidableRel pairLe :=
  fun p q => inferInstanceAs (Decidable (p.1 ≤ q.1))

/-- Reordering both arrays by the `argsort` of the lattice parameters, i.e.
sorting the list of pairs by first component. -/
def sortPairs (ps : List (ℚ × ℚ)) : List (ℚ × ℚ) := List.insertionSort pairLe ps

/-! ### analyze_results.py: the degree-4 least-squares fit -/

/-- Sum of `k`-th powers of the sample abscissae. -/
def powSum (xs : List ℚ) (k : ℕ) : ℚ := (xs.map (fun x => x ^ k)).sum

/-- Sum of `x^k * y` over the sample. -/
def mixSum (ps : List (ℚ × ℚ)) (k : ℕ) : ℚ := (ps.map (fun p => p.1 ^ k * p.2)).sum

/-- Laplace cofactor expansion of an `n × n` rational matrix given as rows. -/
def detL : ℕ → List (List ℚ) → ℚ
  | 0, _ => 1
  | Nat.succ n, m =>
    let row := m.headD []
    (List.range (n + 1)).foldl
      (fun acc j =>
        acc + (-1 : ℚ) ^ j * row.getD j 0 *
          detL n ((m.drop 1).map (fun r => r.eraseIdx j)))
      0

/-- Gram matrix `Vᵀ V` of the degree-4 Vandermonde design matrix in numpy's
decreasing-power convention `V i j = x_i ^ (4 - j)`: entry `(j, l)` is
`Σ x ^ (8 - j - l)`. -/
def normalMat (ps : List (ℚ × ℚ)) : List (List ℚ) :=
  (List.range 5).map (fun j =>
    (List.range 5).map (fun l => powSum (ps.map Prod.fst) (8 - j - l)))

/-- Moment vector `Vᵀ y`: entry `j` is `Σ x ^ (4 - j) * y`. -/
def normalVec (ps : List (ℚ × ℚ)) : List ℚ :=
  (List.range 5).map (fun j => mixSum ps (4 - j))

/-- Replace column `j` of a row-major matrix by the vector `b`. -/
def replaceCol (m : List (List ℚ)) (b : List ℚ) (j : ℕ) : List (List ℚ) :=
  List.zipWith (fun row bi => row.set j bi) m b

/-- `np.polyfit(x, y, 4)` (analyze_results.py line 62): the least-squares
degree-4 coefficients, highest power first — embedded exactly as the Cramer
solution of the normal equations `VᵀV c = Vᵀy` of the decreasing-power
Vandermonde system that `polyfit` solves. -/
def polyfit (ps : List (ℚ × ℚ)) : List ℚ :=
  let M := normalMat ps
  let b := normalVec ps
  let D := detL 5 M
  (List.range 5).map (fun j => detL 5 (replaceCol M b j) / D)

/-- `np.poly1d(coeffs)` evaluation, Horner with highest power first. -/
def polyval (c : List ℚ) (x : ℚ) : ℚ := c.foldl (fun acc ci => acc * x + ci) 0

/-! ### analyze_results.py: results -/

/-- The data computed by a successful run: sorted `(a, E_eV)` pairs, the fit
coefficients, and the grid minimiser `a_eq` with its energy `e_min`. -/
structure FitResult where
  data : List (ℚ × ℚ)
  coeffs : List ℚ
  a_eq : ℚ
  e_min : ℚ
  deriving DecidableEq

/-- Outcome of the analysis script: `crash` is an uncaught `ValueError`,
`failure` the early `exit(1)`, `success` a completed run. -/
inductive AnalyzeResult where
  | crash : AnalyzeResult
  | failure (msg : String) (code : ℕ) : AnalyzeResult
  | success (r : FitResult) : AnalyzeResult
  deriving DecidableEq

/-- `a_fine = np.linspace(lattice_params.min(), lattice_params.max(), 1000)`
(analyze_results.py line 66), as a function of the data points. -/
def gridOf (data : List (ℚ × ℚ)) : List ℚ :=
  linspace (npMin (data.map Prod.fst)) (npMax (data.map Prod.fst)) 1000

/-- `e_fine = poly(a_fine)` (analyze_results.py line 67). -/
def eFine (data : List (ℚ × ℚ)) (coeffs : List ℚ) : List ℚ :=
  (gridOf data).map (polyval coeffs)

/-- The fitting stage of analyze_results.py (lines 52-70) on the collected
pairs: sort by lattice parameter, fit, and take the first minimiser of the
fitted polynomial on the 1000-point grid `gridOf` from the least to the
greatest extracted lattice parameter. -/
def fitStage (pairs : List (ℚ × ℚ)) : FitResult :=
  let data := sortPairs pairs
  let coeffs := polyfit data
  let m := argminIdx (eFine data coeffs)
  ⟨data, coeffs, (gridOf data).getD m 0, (eFine data coeffs).getD m 0⟩

/-- The whole script on a directory listing (analyze_results.py lines 30-70):
collect, exit early when nothing was extracted, then run the fitting stage. -/
def analyze (dir : List (String × String)) : AnalyzeResult :=
  match collectE (sortedFiles dir) with
  | .error _ => .crash
  | .ok pairs =>
    if pairs = [] then
      .failure ("No energies extracted. Check that calculations have completed.") 1
    else
      .success (fitStage pairs)

/-- Whether the analysis reaches the fitting stage. -/
def analyzeSuccess (dir : List (String × String)) : Bool :=
  match analyze dir with
  | .success _ => true
  | _ => false

/-- The fitted result of a successful analysis (junk on other outcomes). -/
def resultOf (dir : List (String × String)) : FitResult :=
  match analyze dir with
  | .success r => r
  | _ => ⟨[], [], 0, 0⟩

deriving instance DecidableEq for Except

/-! ### analyze_results.py: TikZ output (lines 78-159) -/

/-- One coordinate line `    (a, e)` with both values at 6 decimal places, as
produced by the f-strings of lines 105, 122, 142 and 143. -/
def fmtPt (p : ℚ × ℚ) : String :=
  ("    (") ++ fmtFixed 6 p.1 ++ (", ") ++ fmtFixed 6 p.2 ++ (")\n")

/-- Concatenation of the coordinate lines of a list of points. -/
def ptsBlock : List (ℚ × ℚ) → String
  | [] => ("")
  | p :: rest => fmtPt p ++ ptsBlock rest

/-- Header of the TikZ picture through the first `coordinates {` (lines 78-101). -/
def tikzPart1 : String :=
  ("\\begin\x7btikzpicture\x7d\n\\begin\x7baxis\x7d[\n    width=12cm,\n    height=8cm,\n") ++
  ("    xlabel=\x7bLattice Parameter (\\AA)\x7d,\n    ylabel=\x7bTotal Energy (eV/atom)\x7d,\n") ++
  ("    title=\x7bEnergy vs Lattice Parameter for Simple Cubic Cu\x7d,\n    grid=major,\n") ++
  ("    grid style=\x7bdashed, gray!30\x7d,\n    legend pos=north east,\n") ++
  ("    legend style=\x7bfont=\\small\x7d,\n    tick label style=\x7bfont=\\small\x7d,\n") ++
  ("    label style=\x7bfont=\\footnotesize\x7d,\n    title style=\x7bfont=\\bfseries\x7d\n]\n\n") ++
  ("% Calculated points\n\\addplot[\n    only marks,\n    mark=*,\n    mark size=2.5pt,\n") ++
  ("    color=blue,\n] coordinates \x7b\n")

/-- Between the calculated points and the fitted curve (lines 107-116). -/
def tikzPart2 : String :=
  ("\x7d;\n\\addlegendentry\x7bCalculated points\x7d\n\n% Polynomial fit\n\\addplot[\n") ++
  ("    color=red,\n    line width=1.2pt,\n    smooth,\n] coordinates \x7b\n")

/-- Between the fitted curve and the vertical line (lines 124-133). -/
def tikzPart3 : String :=
  ("\x7d;\n\\addlegendentry\x7b4th order polynomial fit\x7d\n\n% Vertical line at minimum\n") ++
  ("\\addplot[\n    color=green!70!black,\n    dashed,\n    line width=1pt,\n] coordinates \x7b\n")

/-- After the vertical line, up to the 4-decimal equilibrium value (line 145-146). -/
def tikzPart4 : String := ("\x7d;\n\\addlegendentry\x7bMinimum at $a=")

/-- Tail of the picture (lines 146-149). -/
def tikzPart5 : String := ("$ \\AA\x7d\n\n\\end\x7baxis\x7d\n\\end\x7btikzpicture\x7d")

/-- The subsampled fitted-curve points of analyze_results.py lines 118-122:
the grid and fitted energies recomputed as in the fitting stage, sampled at
the 100 `dtype=int`-truncated indices of `np.linspace(0, len(a_fine)-1, 100)`. -/
def curvePoints (r : FitResult) : List (ℚ × ℚ) :=
  let a_fine := gridOf r.data
  let e_fine := a_fine.map (polyval r.coeffs)
  let indices := (linspace 0 ((a_fine.length : ℚ) - 1) 100).map (fun q => (⌊q⌋).toNat)
  indices.map (fun i => (a_fine.getD i 0, e_fine.getD i 0))

/-- `y_min - 0.1 * (y_max - y_min)`, lower end of the vertical line (line 139). -/
def yBottom (r : FitResult) : ℚ :=
  let y_min := npMin (r.data.map Prod.snd)
  let y_max := npMax (r.data.map Prod.snd)
  y_min - (1/10) * (y_max - y_min)

/-- `y_max + 0.1 * (y_max - y_min)`, upper end of the vertical line (line 140). -/
def yTop (r : FitResult) : ℚ :=
  let y_min := npMin (r.data.map Prod.snd)
  let y_max := npMax (r.data.map Prod.snd)
  y_max + (1/10) * (y_max - y_min)

/-- The TikZ code built by a successful run (lines 78-149): all calculated
points, the fitted curve subsampled at 100 indices, and the vertical dashed
line at `a_eq` from `y_min - 0.1*range` to `y_max + 0.1*range`. -/
def texOf (r : FitResult) : String :=
  tikzPart1 ++ ptsBlock r.data ++
  tikzPart2 ++ ptsBlock (curvePoints r) ++
  tikzPart3 ++ fmtPt (r.a_eq, yBottom r) ++ fmtPt (r.a_eq, yTop r) ++
  tikzPart4 ++ fmtFixed 4 r.a_eq ++ tikzPart5

/-- The files written by analyze_results.py: nothing unless the run reaches
the end, where the TikZ code is written to `../assets/lattice_optimization.tex`
(lines 151-153). -/
def writtenFiles (dir : List (String × String)) : List (String × String) :=
  match analyze dir with
  | .success r => [(("../assets/lattice_optimization.tex"), texOf r)]
  | _ => []

/-- Split a character list at newlines: the lines of a file. -/
def splitNl : List Char → List (List Char)
  | [] => [[]]
  | c :: cs =>
    if c = '\n' then [] :: splitNl cs
    else
      match splitNl cs with
      | [] => [[c]]
      | l :: ls => (c :: l) :: ls

/-- The lines of a file content. -/
def linesOf (s : String) : List String := (splitNl s.data).map String.mk

/-! ### Concrete inputs used to instantiate the theorems -/

/-- A two-file directory with parseable outputs, listed out of name order. -/
def dirA : List (String × String) :=
  [(("calculations/cu_a3.000.out"), ("! total energy = -4.0 Ry")),
   (("calculations/cu_a1.000.out"), ("! total energy = -5.0 Ry"))]

/-- The same two files in the other listing order. -/
def dirB : List (String × String) :=
  [(("calculations/cu_a1.000.out"), ("! total energy = -5.0 Ry")),
   (("calculations/cu_a3.000.out"), ("! total energy = -4.0 Ry"))]

/-- A file content on which the energy pattern matches across a line break
(`\s+` matches the newline), while no single line matches it. -/
def multilineContent : String := ("!\ntotal energy = 1.0 Ry")

/-! ### Helper lemmas: numpy min / max / argmin -/

theorem foldl_min_le_init (xs : List ℚ) : ∀ a : ℚ, xs.foldl min a ≤ a := by
  induction xs with
  | nil => intro a; simp
  | cons x xs ih => intro a; exact le_trans (ih (min a x)) (min_le_left a x)

theorem foldl_min_le_mem (xs : List ℚ) : ∀ (a y : ℚ), y ∈ xs → xs.foldl min a ≤ y := by
  induction xs with
  | nil => intro a y h; cases h
  | cons x xs ih =>
    intro a y h
    rcases List.mem_cons.mp h with h | h
    · subst h; exact le_trans (foldl_min_le_init xs (min a y)) (min_le_right a y)
    · exact ih (min a x) y h

theorem npMin_le_of_mem (l : List ℚ) (y : ℚ) (hy : y ∈ l) : npMin l ≤ y := by
  cases l with
  | nil => cases hy
  | cons x xs =>
    rcases List.mem_cons.mp hy with h | h
    · subst h; exact foldl_min_le_init xs y
    · exact foldl_min_le_mem xs x y h

theorem init_le_foldl_max (xs : List ℚ) : ∀ a : ℚ, a ≤ xs.foldl max a := by
  induction xs with
  | nil => intro a; simp
  | cons x xs ih => intro a; exact le_trans (le_max_left a x) (ih (max a x))

theorem mem_le_foldl_max (xs : List ℚ) : ∀ (a y : ℚ), y ∈ xs → y ≤ xs.foldl max a := by
  induction xs with
  | nil => intro a y h; cases h
  | cons x xs ih =>
    intro a y h
    rcases List.mem_cons.mp h with h | h
    · subst h; exact le_trans (le_max_right a y) (init_le_foldl_max xs (max a y))
    · exact ih (max a x) y h

theorem le_npMax_of_mem (l : List ℚ) (y : ℚ) (hy : y ∈ l) : y ≤ npMax l := by
  cases l with
  | nil => cases hy
  | cons x xs =>
    rcases List.mem_cons.mp hy with h | h
    · subst h; exact init_le_foldl_max xs y
    · exact mem_le_foldl_max xs x y h

theorem npMin_le_npMax (l : List ℚ) (h : l ≠ []) : npMin l ≤ npMax l := by
  cases l with
  | nil => exact absurd rfl h
  | cons x xs =>
    exact le_trans (npMin_le_of_mem (x :: xs) x (List.mem_cons_self x xs))
      (le_npMax_of_mem (x :: xs) x (List.mem_cons_self x xs))

theorem argminIdx_lt (l : List ℚ) (h : l ≠ []) : argminIdx l < l.length := by
  induction l with
  | nil => exact absurd rfl h
  | cons x xs ih =>
    by_cases hxs : xs = []
    · subst hxs; simp [argminIdx]
    · simp only [argminIdx, if_neg hxs]
      by_cases hlt : xs.getD (argminIdx xs) 0 < x
      · rw [if_pos hlt]; simpa using Nat.succ_lt_succ (ih hxs)
      · rw [if_neg hlt]; simp

theorem argminIdx_getD_le (l : List ℚ) (y : ℚ) (hy : y ∈ l) :
    l.getD (argminIdx l) 0 ≤ y := by
  induction l with
  | nil => cases hy
  | cons x xs ih =>
    by_cases hxs : xs = []
    · subst hxs
      rcases List.mem_cons.mp hy with h | h
      · subst h; simp [argminIdx]
      · cases h
    · simp only [argminIdx, if_neg hxs]
      by_cases hlt : xs.getD (argminIdx xs) 0 < x
      · rw [if_pos hlt]
        simp only [List.getD_cons_succ]
        rcases List.mem_cons.mp hy with h | h
        · subst h; exact le_of_lt hlt
        · exact ih h
      · rw [if_neg hlt]
        simp only [List.getD_cons_zero]
        rcases List.mem_cons.mp hy with h | h
        · subst h; exact le_refl y
        · exact le_trans (le_of_not_lt hlt) (ih h)

/-! ### Helper lemmas: linspace -/

theorem linspace_length (a b : ℚ) (n : ℕ) : (linspace a b n).length = n := by
  rw [linspace, List.length_map, List.length_range]

theorem linspace_getD (a b : ℚ) (n i : ℕ) (h : i < n) :
    (linspace a b n).getD i 0 = a + i * (b - a) / ((n : ℚ) - 1) := by
  have hlen : i < (linspace a b n).length := by rw [linspace_length]; exact h
  rw [List.getD_eq_getElem _ _ hlen]
  simp only [linspace, List.getElem_map, List.getElem_range]

theorem mem_linspace (a b : ℚ) (n : ℕ) (g : ℚ) (hg : g ∈ linspace a b n) :
    ∃ i : ℕ, i < n ∧ g = a + i * (b - a) / ((n : ℚ) - 1) := by
  rw [linspace] at hg
  obtain ⟨i, hi, hgi⟩ := List.mem_map.mp hg
  exact ⟨i, List.mem_range.mp hi, hgi.symm⟩

theorem linspace_bounds (a b : ℚ) (n : ℕ) (hn : 1 < n) (hab : a ≤ b) (g : ℚ)
    (hg : g ∈ linspace a b n) : a ≤ g ∧ g ≤ b := by
  obtain ⟨i, hi, rfl⟩ := mem_linspace a b n g hg
  have hd : (0 : ℚ) < (n : ℚ) - 1 := by
    have : (1 : ℚ) < (n : ℚ) := by exact_mod_cast hn
    linarith
  have hba : (0 : ℚ) ≤ b - a := by linarith
  have hi9 : (i : ℚ) ≤ (n : ℚ) - 1 := by
    have : (i : ℚ) + 1 ≤ (n : ℚ) := by exact_mod_cast hi
    linarith
  constructor
  · have : (0 : ℚ) ≤ i * (b - a) / ((n : ℚ) - 1) :=
      div_nonneg (mul_nonneg (by positivity) hba) (le_of_lt hd)
    linarith
  · have : i * (b - a) / ((n : ℚ) - 1) ≤ b - a := by
      rw [div_le_iff₀ hd]
      calc (i : ℚ) * (b - a) ≤ ((n : ℚ) - 1) * (b - a) :=
            mul_le_mul_of_nonneg_right hi9 hba
        _ = (b - a) * ((n : ℚ) - 1) := by ring
    linarith

/-! ### Leftmost-match characterisation of the energy search -/

theorem searchEnergy_leftmost :
    ∀ (cs g : List Char), searchEnergy cs = some g →
      ∃ i, matchEnergyAt (cs.drop i) = some g ∧
        ∀ j, j < i → matchEnergyAt (cs.drop j) = none := by
  intro cs
  induction cs with
  | nil => intro g h; simp [searchEnergy] at h
  | cons c cs ih =>
    intro g h
    rw [searchEnergy] at h
    cases hm : matchEnergyAt (c :: cs) with
    | some gm =>
      rw [hm] at h
      injection h with h'
      subst h'
      exact ⟨0, by simpa using hm, fun j hj => absurd hj (Nat.not_lt_zero j)⟩
    | none =>
      rw [hm] at h
      obtain ⟨i, hi, hj⟩ := ih g h
      refine ⟨i + 1, by simpa using hi, ?_⟩
      intro j hj'
      cases j with
      | zero => simpa using hm
      | succ j' => simpa using hj j' (Nat.lt_of_succ_lt_succ hj')

/-- Claim C3 (amended): for every output file, `extract_energy` returns the
first (leftmost) number matched by the pattern `! total energy = X Ry` in the
file's content as a float, and returns `None` when the pattern matches
nowhere in the content. -/
theorem claim_C3 (content : String) :
    (searchEnergy content.data = none → extract_energy content = Except.ok none) ∧
    (∀ g v, searchEnergy content.data = some g → pyFloat g = some v →
      extract_energy content = Except.ok (some v)) ∧
    (∀ g, searchEnergy content.data = some g →
      ∃ i, matchEnergyAt (content.data.drop i) = some g ∧
        ∀ j, j < i → matchEnergyAt (content.data.drop j) = none) := by
  refine ⟨?_, ?_, ?_⟩
  · intro h; simp only [extract_energy, h]
  · intro g v hg hv; simp only [extract_energy, hg, hv]
  · intro g hg; exact searchEnergy_leftmost content.data g hg

/-- Claim C3, the clause as frozen is false: on this content the pattern
matches across a line break (`\s+` matches `\n`), so no single line of the
file matches the pattern, yet `extract_energy` does not return `None`. -/
theorem claim_C3_counterexample :
    (∀ l ∈ linesOf multilineContent, searchEnergy l.data = none) ∧
    extract_energy multilineContent ≠ Except.ok none := by
  exact ⟨by decide, by decide⟩

/-- Witness instantiating claim C3 on concrete contents. -/
theorem claim_C3_witness :
    extract_energy ("nothing here") = Except.ok none ∧
    extract_energy ("! total energy = -2.5 Ry") = Except.ok (some (-(5/2))) :=
  ⟨(claim_C3 (("nothing here"))).1 (by decide),
   (claim_C3 (("! total energy = -2.5 Ry"))).2.1 (("-2.5").data) (-(5/2))
     (by decide) (by decide)⟩

/-- Claim C2: the generator creates one input file for every lattice
parameter: the sweep has 12 evenly spaced values from 2.2 to 2.9 inclusive,
and the i-th file written is `calculations/cu_a{a:.3f}.in` (names listed
explicitly) with the template instantiated at that value. -/
theorem claim_C2 :
    lattice_params_ang.length = 12 ∧
    lattice_params_ang.getD 0 0 = 22/10 ∧
    lattice_params_ang.getD 11 0 = 29/10 ∧
    (∀ i : Fin 11, lattice_params_ang.getD (i.val + 1) 0 -
      lattice_params_ang.getD i.val 0 = 7/110) ∧
    generate_files.map Prod.fst =
      [("calculations/cu_a2.200.in"), ("calculations/cu_a2.264.in"),
       ("calculations/cu_a2.327.in"), ("calculations/cu_a2.391.in"),
       ("calculations/cu_a2.455.in"), ("calculations/cu_a2.518.in"),
       ("calculations/cu_a2.582.in"), ("calculations/cu_a2.645.in"),
       ("calculations/cu_a2.709.in"), ("calculations/cu_a2.773.in"),
       ("calculations/cu_a2.836.in"), ("calculations/cu_a2.900.in")] ∧
    (∀ i : Fin 12, generate_files.getD i.val ((""), ("")) =
      (input_filename (lattice_params_ang.getD i.val 0),
       input_template (lattice_params_ang.getD i.val 0)
         (lattice_params_ang.getD i.val 0 * ANG_TO_BOHR))) :=
  ⟨by decide, by decide, by decide, by decide, by decide, by decide⟩

/-- Claim C6: in every generated input file, the `celldm(1)` field equals the
lattice parameter multiplied by `ANG_TO_BOHR = 1.88972687777`, formatted to
8 decimal places. -/
theorem claim_C6 : ∀ i : Fin 12,
    (("  celldm(1) = ") ++ fmtFixed 8 (lattice_params_ang.getD i.val 0 * ANG_TO_BOHR) ++
      ("\n")).data <:+: ((generate_files.getD i.val ((""), (""))).2).data := by
  decide

/-- Claim C5: the two scripts round-trip the lattice parameter through the
filenames: for every swept value, the analyzer's pattern applied to the
generator's output filename recovers the value rounded to 3 decimals. -/
theorem claim_C5 : ∀ i : Fin 12,
    (searchName (output_filename (lattice_params_ang.getD i.val 0)).data).bind pyFloat =
      some (round3 (lattice_params_ang.getD i.val 0)) := by
  decide

/-- Claim C9: when the collected energy list is empty, the script prints the
message, exits with status 1, and writes no file. -/
theorem claim_C9 (dir : List (String × String))
    (h : collectE (sortedFiles dir) = Except.ok []) :
    analyze dir = AnalyzeResult.failure
      ("No energies extracted. Check that calculations have completed.") 1 ∧
    writtenFiles dir = [] := by
  have ha : analyze dir = AnalyzeResult.failure
      ("No energies extracted. Check that calculations have completed.") 1 := by
    unfold analyze
    rw [h]
    rfl
  refine ⟨ha, ?_⟩
  unfold writtenFiles
  rw [ha]

/-- Witness instantiating claim C9 on the empty directory. -/
theorem claim_C9_witness :
    collectE (sortedFiles ([] : List (String × String))) = Except.ok [] ∧
    (analyze ([] : List (String × String)) = AnalyzeResult.failure
      ("No energies extracted. Check that calculations have completed.") 1 ∧
    writtenFiles ([] : List (String × String)) = []) :=
  ⟨by decide, claim_C9 [] (by decide)⟩

/-! ### Inversion of a successful analysis -/

theorem analyze_success_spec (dir : List (String × String))
    (h : analyzeSuccess dir = true) :
    ∃ pairs, collectE (sortedFiles dir) = Except.ok pairs ∧ pairs ≠ [] ∧
      analyze dir = AnalyzeResult.success (fitStage pairs) ∧
      resultOf dir = fitStage pairs := by
  cases hc : collectE (sortedFiles dir) with
  | error e =>
    exfalso
    have ha : analyze dir = AnalyzeResult.crash := by unfold analyze; rw [hc]
    unfold analyzeSuccess at h
    rw [ha] at h
    exact absurd h (by decide)
  | ok pairs =>
    by_cases hp : pairs = []
    · exfalso
      subst hp
      have ha : analyze dir = AnalyzeResult.failure
          ("No energies extracted. Check that calculations have completed.") 1 := by
        unfold analyze; rw [hc]; rfl
      unfold analyzeSuccess at h
      rw [ha] at h
      exact absurd h (by decide)
    · have ha : analyze dir = AnalyzeResult.success (fitStage pairs) := by
        unfold analyze
        simp only [hc]
        rw [if_neg hp]
      exact ⟨pairs, rfl, hp, ha, by unfold resultOf; rw [ha]⟩

theorem fitStage_data (pairs : List (ℚ × ℚ)) : (fitStage pairs).data = sortPairs pairs := by
  simp only [fitStage]

theorem fitStage_coeffs (pairs : List (ℚ × ℚ)) :
    (fitStage pairs).coeffs = polyfit (sortPairs pairs) := by
  simp only [fitStage]

theorem fitStage_a_eq (pairs : List (ℚ × ℚ)) :
    (fitStage pairs).a_eq = (gridOf (sortPairs pairs)).getD
      (argminIdx (eFine (sortPairs pairs) (polyfit (sortPairs pairs)))) 0 := by
  simp only [fitStage]

theorem fitStage_e_min (pairs : List (ℚ × ℚ)) :
    (fitStage pairs).e_min = (eFine (sortPairs pairs) (polyfit (sortPairs pairs))).getD
      (argminIdx (eFine (sortPairs pairs) (polyfit (sortPairs pairs)))) 0 := by
  simp only [fitStage]

theorem eFine_eq (data : List (ℚ × ℚ)) (coeffs : List ℚ) :
    eFine data coeffs = (gridOf data).map (polyval coeffs) := rfl

theorem sortPairs_perm (ps : List (ℚ × ℚ)) : (sortPairs ps).Perm ps :=
  List.perm_insertionSort pairLe ps

theorem sortPairs_ne_nil (ps : List (ℚ × ℚ)) (h : ps ≠ []) : sortPairs ps ≠ [] := by
  intro hcontra
  apply h
  have hperm := sortPairs_perm ps
  rw [hcontra] at hperm
  exact (List.Perm.nil_eq hperm).symm

theorem sortPairs_sorted (ps : List (ℚ × ℚ)) : List.Sorted pairLe (sortPairs ps) := by
  haveI : IsTotal (ℚ × ℚ) pairLe := ⟨fun a b => le_total a.1 b.1⟩
  haveI : IsTrans (ℚ × ℚ) pairLe := ⟨fun a b c hab hbc => le_trans hab hbc⟩
  exact List.sorted_insertionSort pairLe ps

theorem gridOf_eq (data : List (ℚ × ℚ)) :
    gridOf data = linspace (npMin (data.map Prod.fst)) (npMax (data.map Prod.fst)) 1000 := rfl

/-- Claim C8: the reported equilibrium lattice parameter lies within the
closed interval from the least to the greatest extracted lattice parameter. -/
theorem claim_C8 (dir : List (String × String)) (h : analyzeSuccess dir = true) :
    npMin ((resultOf dir).data.map Prod.fst) ≤ (resultOf dir).a_eq ∧
    (resultOf dir).a_eq ≤ npMax ((resultOf dir).data.map Prod.fst) := by
  obtain ⟨pairs, hc, hne, ha, hr⟩ := analyze_success_spec dir h
  rw [hr, fitStage_data, fitStage_a_eq]
  have hdne : sortPairs pairs ≠ [] := sortPairs_ne_nil pairs hne
  have hmapne : (sortPairs pairs).map Prod.fst ≠ [] := by
    intro hmap
    exact hdne (List.map_eq_nil_iff.mp hmap)
  have hmm : npMin ((sortPairs pairs).map Prod.fst) ≤ npMax ((sortPairs pairs).map Prod.fst) :=
    npMin_le_npMax _ hmapne
  have hglen : (gridOf (sortPairs pairs)).length = 1000 := by
    rw [gridOf_eq]; exact linspace_length _ _ _
  have hemne : eFine (sortPairs pairs) (polyfit (sortPairs pairs)) ≠ [] := by
    intro hmap
    have := congrArg List.length hmap
    rw [eFine_eq, List.length_map, hglen] at this
    simp at this
  have hmlt : argminIdx (eFine (sortPairs pairs) (polyfit (sortPairs pairs))) <
      (gridOf (sortPairs pairs)).length := by
    have := argminIdx_lt _ hemne
    rwa [eFine_eq, List.length_map] at this
  have hmem : (gridOf (sortPairs pairs)).getD
      (argminIdx (eFine (sortPairs pairs) (polyfit (sortPairs pairs)))) 0 ∈
      gridOf (sortPairs pairs) := by
    rw [List.getD_eq_getElem _ _ hmlt]
    exact List.getElem_mem hmlt
  rw [gridOf_eq] at hmem
  exact linspace_bounds _ _ 1000 (by norm_num) hmm _ hmem

/-- Witness instantiating claim C8 on the concrete directory `dirA`. -/
theorem claim_C8_witness :
    analyzeSuccess dirA = true ∧
    (npMin ((resultOf dirA).data.map Prod.fst) ≤ (resultOf dirA).a_eq ∧
    (resultOf dirA).a_eq ≤ npMax ((resultOf dirA).data.map Prod.fst)) :=
  ⟨by decide, claim_C8 dirA (by decide)⟩

/-! ### Provenance of collected pairs and the grid minimiser -/

theorem sortedFiles_subset (dir : List (String × String)) :
    ∀ f ∈ sortedFiles dir, f ∈ dir := by
  intro f hf
  unfold sortedFiles at hf
  have hm := (List.perm_insertionSort fileLe _).mem_iff.mp hf
  exact List.mem_of_mem_filter hm

theorem collectE_mem :
    ∀ (files : List (String × String)) (pairs : List (ℚ × ℚ)),
      collectE files = Except.ok pairs → ∀ p ∈ pairs,
      ∃ f ∈ files, ∃ g, searchName f.1.data = some g ∧ pyFloat g = some p.1 ∧
        ∃ E, extract_energy f.2 = Except.ok (some E) ∧ p.2 = E * RY_TO_EV := by
  intro files
  induction files with
  | nil =>
    intro pairs h p hp
    simp only [collectE] at h
    injection h with h'
    subst h'
    cases hp
  | cons fc rest ih =>
    intro pairs h p hp
    obtain ⟨n, c⟩ := fc
    simp only [collectE] at h
    cases hs : searchName n.data with
    | none =>
      simp only [hs] at h
      obtain ⟨f, hf, hrest⟩ := ih pairs h p hp
      exact ⟨f, List.mem_cons_of_mem _ hf, hrest⟩
    | some g =>
      simp only [hs] at h
      cases hpf : pyFloat g with
      | none => simp only [hpf] at h; exact Except.noConfusion h
      | some a =>
        simp only [hpf] at h
        cases hex : extract_energy c with
        | error e => simp only [hex] at h; exact Except.noConfusion h
        | ok oe =>
          simp only [hex] at h
          cases oe with
          | none =>
            obtain ⟨f, hf, hrest⟩ := ih pairs h p hp
            exact ⟨f, List.mem_cons_of_mem _ hf, hrest⟩
          | some en =>
            cases hcr : collectE rest with
            | error e => simp only [hcr] at h; exact Except.noConfusion h
            | ok l =>
              simp only [hcr] at h
              injection h with h'
              subst h'
              rcases List.mem_cons.mp hp with hpe | hpl
              · refine ⟨(n, c), List.mem_cons_self _ _, g, hs, ?_, en, hex, ?_⟩
                · rw [hpe]; exact hpf
                · rw [hpe]
              · obtain ⟨f, hf, hrest⟩ := ih l hcr p hpl
                exact ⟨f, List.mem_cons_of_mem _ hf, hrest⟩

theorem fitStage_a_eq_mem (pairs : List (ℚ × ℚ)) :
    (fitStage pairs).a_eq ∈ gridOf (sortPairs pairs) := by
  rw [fitStage_a_eq]
  have hglen : (gridOf (sortPairs pairs)).length = 1000 := by
    rw [gridOf_eq]; exact linspace_length _ _ _
  have hene : eFine (sortPairs pairs) (polyfit (sortPairs pairs)) ≠ [] := by
    intro hmap
    have := congrArg List.length hmap
    rw [eFine_eq, List.length_map, hglen] at this
    simp at this
  have hmlt : argminIdx (eFine (sortPairs pairs) (polyfit (sortPairs pairs))) <
      (gridOf (sortPairs pairs)).length := by
    have := argminIdx_lt _ hene
    rwa [eFine_eq, List.length_map] at this
  rw [List.getD_eq_getElem _ _ hmlt]
  exact List.getElem_mem hmlt

theorem polyval_argmin_le (c : List ℚ) (grid : List ℚ) (hg : grid ≠ [])
    (g : ℚ) (hmem : g ∈ grid) :
    polyval c (grid.getD (argminIdx (grid.map (polyval c))) 0) ≤ polyval c g := by
  have hene : grid.map (polyval c) ≠ [] := fun hmap => hg (List.map_eq_nil_iff.mp hmap)
  have hmlt : argminIdx (grid.map (polyval c)) < (grid.map (polyval c)).length :=
    argminIdx_lt _ hene
  have hmlt2 : argminIdx (grid.map (polyval c)) < grid.length := by
    rwa [List.length_map] at hmlt
  have h1 : (grid.map (polyval c)).getD (argminIdx (grid.map (polyval c))) 0 ≤ polyval c g :=
    argminIdx_getD_le _ (polyval c g) (List.mem_map_of_mem _ hmem)
  have h2 : (grid.map (polyval c)).getD (argminIdx (grid.map (polyval c))) 0 =
      polyval c (grid.getD (argminIdx (grid.map (polyval c))) 0) := by
    rw [List.getD_eq_getElem _ _ hmlt, List.getD_eq_getElem _ _ hmlt2]
    exact List.getElem_map _
  rwa [h2] at h1

/-- Claim C1: the analysis fits a degree-4 polynomial (energies converted
from Ry to eV by `RY_TO_EV = 13.605693122994`), and reports as equilibrium
lattice constant a point of the grid of 1000 evenly spaced points spanning
the least to the greatest extracted lattice parameter that minimises the
fitted polynomial over that grid. -/
theorem claim_C1 (dir : List (String × String)) (h : analyzeSuccess dir = true) :
    (∀ p ∈ (resultOf dir).data, ∃ f ∈ dir, ∃ g, searchName f.1.data = some g ∧
        pyFloat g = some p.1 ∧ ∃ E, extract_energy f.2 = Except.ok (some E) ∧
        p.2 = E * RY_TO_EV) ∧
    (resultOf dir).coeffs = polyfit (resultOf dir).data ∧
    (gridOf (resultOf dir).data).length = 1000 ∧
    (∀ i : Fin 1000, (gridOf (resultOf dir).data).getD i.val 0 =
      npMin ((resultOf dir).data.map Prod.fst) +
        (i.val : ℚ) * (npMax ((resultOf dir).data.map Prod.fst) -
          npMin ((resultOf dir).data.map Prod.fst)) / 999) ∧
    (resultOf dir).a_eq ∈ gridOf (resultOf dir).data ∧
    (∀ g ∈ gridOf (resultOf dir).data,
      polyval (resultOf dir).coeffs (resultOf dir).a_eq ≤
        polyval (resultOf dir).coeffs g) := by
  obtain ⟨pairs, hc, hne, ha, hr⟩ := analyze_success_spec dir h
  rw [hr]
  refine ⟨?_, ?_, ?_, ?_, ?_, ?_⟩
  · intro p hp
    rw [fitStage_data] at hp
    have hp2 : p ∈ pairs := (sortPairs_perm pairs).mem_iff.mp hp
    obtain ⟨f, hf, hrest⟩ := collectE_mem (sortedFiles dir) pairs hc p hp2
    exact ⟨f, sortedFiles_subset dir f hf, hrest⟩
  · rw [fitStage_coeffs, fitStage_data]
  · rw [fitStage_data, gridOf_eq]; exact linspace_length _ _ _
  · intro i
    rw [fitStage_data, gridOf_eq, linspace_getD _ _ 1000 i.val i.isLt]
    norm_num
  · rw [fitStage_data]; exact fitStage_a_eq_mem pairs
  · intro g hg
    rw [fitStage_data] at hg
    rw [fitStage_coeffs, fitStage_a_eq]
    have hgridne : gridOf (sortPairs pairs) ≠ [] := by
      intro hnil
      have := congrArg List.length hnil
      rw [gridOf_eq, linspace_length] at this
      simp at this
    have := polyval_argmin_le (polyfit (sortPairs pairs)) (gridOf (sortPairs pairs)) hgridne g hg
    rwa [eFine_eq]

/-- Witness instantiating claim C1 on the concrete directory `dirA`. -/
theorem claim_C1_witness :
    analyzeSuccess dirA = true ∧
    ((∀ p ∈ (resultOf dirA).data, ∃ f ∈ dirA, ∃ g, searchName f.1.data = some g ∧
        pyFloat g = some p.1 ∧ ∃ E, extract_energy f.2 = Except.ok (some E) ∧
        p.2 = E * RY_TO_EV) ∧
    (resultOf dirA).coeffs = polyfit (resultOf dirA).data ∧
    (gridOf (resultOf dirA).data).length = 1000 ∧
    (∀ i : Fin 1000, (gridOf (resultOf dirA).data).getD i.val 0 =
      npMin ((resultOf dirA).data.map Prod.fst) +
        (i.val : ℚ) * (npMax ((resultOf dirA).data.map Prod.fst) -
          npMin ((resultOf dirA).data.map Prod.fst)) / 999) ∧
    (resultOf dirA).a_eq ∈ gridOf (resultOf dirA).data ∧
    (∀ g ∈ gridOf (resultOf dirA).data,
      polyval (resultOf dirA).coeffs (resultOf dirA).a_eq ≤
        polyval (resultOf dirA).coeffs g)) :=
  ⟨by decide, claim_C1 dirA (by decide)⟩

/-- Claim C10: the sorting step reorders the collected data so the lattice
parameters are nondecreasing (the pairs are sorted by first component) while
the multiset of (lattice parameter, energy) pairs is unchanged. -/
theorem claim_C10 (dir : List (String × String)) (pairs : List (ℚ × ℚ))
    (h : collectE (sortedFiles dir) = Except.ok pairs) (hne : pairs ≠ []) :
    List.Sorted pairLe (resultOf dir).data ∧ (resultOf dir).data.Perm pairs := by
  have hs : analyzeSuccess dir = true := by
    unfold analyzeSuccess analyze
    simp only [h]
    rw [if_neg hne]
  obtain ⟨pairs', hc', hne', ha, hr⟩ := analyze_success_spec dir hs
  have hpp : pairs' = pairs := by
    rw [h] at hc'
    injection hc' with h'
    exact h'.symm
  subst hpp
  rw [hr, fitStage_data]
  exact ⟨sortPairs_sorted pairs', sortPairs_perm pairs'⟩

/-- Witness instantiating claim C10 on `dirA`. -/
theorem claim_C10_witness :
    (collectE (sortedFiles dirA) =
        Except.ok [((1 : ℚ), -5 * RY_TO_EV), ((3 : ℚ), -4 * RY_TO_EV)] ∧
      ([((1 : ℚ), -5 * RY_TO_EV), ((3 : ℚ), -4 * RY_TO_EV)] : List (ℚ × ℚ)) ≠ []) ∧
    (List.Sorted pairLe (resultOf dirA).data ∧
      (resultOf dirA).data.Perm [((1 : ℚ), -5 * RY_TO_EV), ((3 : ℚ), -4 * RY_TO_EV)]) :=
  ⟨⟨by decide, by decide⟩,
   claim_C10 dirA [((1 : ℚ), -5 * RY_TO_EV), ((3 : ℚ), -4 * RY_TO_EV)] (by decide) (by decide)⟩

/-! ### Order lemmas on filenames and uniqueness of the sorted listing -/

theorem charListLe_total : ∀ s t : List Char, charListLe s t = true ∨ charListLe t s = true := by
  intro s
  induction s with
  | nil => intro t; exact Or.inl rfl
  | cons a s ih =>
    intro t
    cases t with
    | nil => exact Or.inr rfl
    | cons b t =>
      by_cases hab : a = b
      · subst hab
        rcases ih t with h | h
        · left; simpa [charListLe] using h
        · right; simpa [charListLe] using h
      · have hba : ¬ b = a := fun h => hab h.symm
        rcases lt_trichotomy a b with hlt | heq | hgt
        · left; simp [charListLe, hab, hlt]
        · exact absurd heq hab
        · right; simp [charListLe, hba, hgt]

theorem charListLe_trans :
    ∀ s t u : List Char, charListLe s t = true → charListLe t u = true →
      charListLe s u = true := by
  intro s
  induction s with
  | nil => intro t u h1 h2; rfl
  | cons a s ih =>
    intro t u h1 h2
    cases t with
    | nil => simp [charListLe] at h1
    | cons b t =>
      cases u with
      | nil => simp [charListLe] at h2
      | cons c u =>
        by_cases hab : a = b <;> by_cases hbc : b = c
        · subst hab; subst hbc
          simp only [charListLe, if_pos rfl] at h1 h2 ⊢
          exact ih t u h1 h2
        · subst hab
          simp only [charListLe, if_pos rfl] at h1
          simp only [charListLe, if_neg hbc, decide_eq_true_iff] at h2
          have hac : ¬ a = c := ne_of_lt h2
          simp [charListLe, hac, h2]
        · subst hbc
          simp only [charListLe, if_neg hab, decide_eq_true_iff] at h1
          have hac : ¬ a = b := ne_of_lt h1
          simp [charListLe, hac, h1]
        · simp only [charListLe, if_neg hab, decide_eq_true_iff] at h1
          simp only [charListLe, if_neg hbc, decide_eq_true_iff] at h2
          have hac : a < c := lt_trans h1 h2
          simp [charListLe, ne_of_lt hac, hac]

theorem charListLe_antisymm :
    ∀ s t : List Char, charListLe s t = true → charListLe t s = true → s = t := by
  intro s
  induction s with
  | nil =>
    intro t h1 h2
    cases t with
    | nil => rfl
    | cons b t => simp [charListLe] at h2
  | cons a s ih =>
    intro t h1 h2
    cases t with
    | nil => simp [charListLe] at h1
    | cons b t =>
      by_cases hab : a = b
      · subst hab
        simp only [charListLe, if_pos rfl] at h1 h2
        rw [ih t h1 h2]
      · have hba : ¬ b = a := fun h => hab h.symm
        simp only [charListLe, if_neg hab, decide_eq_true_iff] at h1
        simp only [charListLe, if_neg hba, decide_eq_true_iff] at h2
        exact absurd h2 (lt_asymm h1)

theorem sortedFiles_sorted (dir : List (String × String)) :
    List.Sorted fileLe (sortedFiles dir) := by
  haveI : IsTotal (String × String) fileLe := ⟨fun a b => charListLe_total a.1.data b.1.data⟩
  haveI : IsTrans (String × String) fileLe :=
    ⟨fun a b c hab hbc => charListLe_trans a.1.data b.1.data c.1.data hab hbc⟩
  exact List.sorted_insertionSort fileLe _

theorem sorted_perm_nodup_key_eq :
    ∀ l₁ l₂ : List (String × String), l₁.Perm l₂ → List.Sorted fileLe l₁ →
      List.Sorted fileLe l₂ → (l₁.map Prod.fst).Nodup → l₁ = l₂ := by
  intro l₁
  induction l₁ with
  | nil =>
    intro l₂ hp _ _ _
    exact List.Perm.nil_eq hp
  | cons x t₁ ih =>
    intro l₂ hp hs₁ hs₂ hnd
    cases l₂ with
    | nil =>
      have := hp.length_eq
      simp at this
    | cons y t₂ =>
      have hxy : x = y := by
        have hx2 : x ∈ y :: t₂ := hp.mem_iff.mp (List.mem_cons_self x t₁)
        have hy1 : y ∈ x :: t₁ := hp.mem_iff.mpr (List.mem_cons_self y t₂)
        rcases List.mem_cons.mp hx2 with h | hx2'
        · exact h
        rcases List.mem_cons.mp hy1 with h | hy1'
        · exact h.symm
        exfalso
        have h1 : fileLe x y := (List.sorted_cons.mp hs₁).1 y hy1'
        have h2 : fileLe y x := (List.sorted_cons.mp hs₂).1 x hx2'
        have hkey : x.1 = y.1 := String.ext (charListLe_antisymm _ _ h1 h2)
        have hx1notin : x.1 ∉ t₁.map Prod.fst := by
          rw [List.map_cons] at hnd
          exact (List.nodup_cons.mp hnd).1
        exact hx1notin (hkey ▸ List.mem_map_of_mem Prod.fst hy1')
      subst hxy
      have ht : t₁.Perm t₂ := hp.cons_inv
      have hndt : (t₁.map Prod.fst).Nodup := by
        rw [List.map_cons] at hnd
        exact (List.nodup_cons.mp hnd).2
      rw [ih t₂ ht (List.sorted_cons.mp hs₁).2 (List.sorted_cons.mp hs₂).2 hndt]

/-- Claim C7: the analysis is deterministic over the set of output files: two
directory listings holding the same files (in any order, with distinct names)
yield the same analysis outcome and the same written files. -/
theorem claim_C7 (d₁ d₂ : List (String × String)) (hperm : d₁.Perm d₂)
    (hnd : (d₁.map Prod.fst).Nodup) :
    analyze d₁ = analyze d₂ ∧ writtenFiles d₁ = writtenFiles d₂ := by
  have hsf : sortedFiles d₁ = sortedFiles d₂ := by
    have hf : (d₁.filter (fun f => globMatch f.1)).Perm
        (d₂.filter (fun f => globMatch f.1)) := hperm.filter _
    have hp12 : (sortedFiles d₁).Perm (sortedFiles d₂) := by
      unfold sortedFiles
      exact (List.perm_insertionSort fileLe _).trans
        (hf.trans (List.perm_insertionSort fileLe _).symm)
    have hnd1 : ((sortedFiles d₁).map Prod.fst).Nodup := by
      have hsub : List.Sublist (d₁.filter (fun f => globMatch f.1)) d₁ :=
        List.filter_sublist d₁
      have hnd2 : ((d₁.filter (fun f => globMatch f.1)).map Prod.fst).Nodup :=
        hnd.sublist (hsub.map Prod.fst)
      have hpm : ((sortedFiles d₁).map Prod.fst).Perm
          ((d₁.filter (fun f => globMatch f.1)).map Prod.fst) :=
        (List.perm_insertionSort fileLe _).map Prod.fst
      exact hpm.nodup_iff.mpr hnd2
    exact sorted_perm_nodup_key_eq _ _ hp12 (sortedFiles_sorted d₁) (sortedFiles_sorted d₂) hnd1
  have hana : analyze d₁ = analyze d₂ := by unfold analyze; rw [hsf]
  refine ⟨hana, ?_⟩
  unfold writtenFiles
  rw [hana]

/-- Witness instantiating claim C7 on the two listings of the same files. -/
theorem claim_C7_witness :
    (dirA.Perm dirB ∧ (dirA.map Prod.fst).Nodup) ∧
    (analyze dirA = analyze dirB ∧ writtenFiles dirA = writtenFiles dirB) :=
  ⟨⟨by decide, by decide⟩, claim_C7 dirA dirB (by decide) (by decide)⟩

/-! ### The TikZ file: infix decomposition -/

theorem fmtPt_mem_block (l : List (ℚ × ℚ)) (p : ℚ × ℚ) (hp : p ∈ l) :
    (fmtPt p).data <:+: (ptsBlock l).data := by
  induction l with
  | nil => cases hp
  | cons q rest ih =>
    rcases List.mem_cons.mp hp with h | h
    · subst h
      refine ⟨[], (ptsBlock rest).data, ?_⟩
      simp [ptsBlock, String.data_append]
    · obtain ⟨s, t, hst⟩ := ih h
      refine ⟨(fmtPt q).data ++ s, t, ?_⟩
      have hq : (ptsBlock (q :: rest)).data = (fmtPt q).data ++ (ptsBlock rest).data := by
        simp [ptsBlock, String.data_append]
      rw [hq, ← hst]
      simp [List.append_assoc]

theorem data_append10 (s1 s2 s3 s4 s5 s6 s7 s8 s9 s10 : String) :
    (s1 ++ s2 ++ s3 ++ s4 ++ s5 ++ s6 ++ s7 ++ s8 ++ s9 ++ s10).data =
      s1.data ++ (s2.data ++ (s3.data ++ (s4.data ++ (s5.data ++ (s6.data ++
        (s7.data ++ (s8.data ++ (s9.data ++ s10.data)))))))) := by
  simp [String.data_append, List.append_assoc]

theorem infix_pos2 (a x r : List Char) : x <:+: a ++ (x ++ r) :=
  ⟨a, r, by simp [List.append_assoc]⟩

theorem infix_pos4 (a b c x r : List Char) : x <:+: a ++ (b ++ (c ++ (x ++ r))) :=
  ⟨a ++ (b ++ c), r, by simp [List.append_assoc]⟩

theorem infix_pos6_pair (a b c d e x1 x2 r : List Char) :
    (x1 ++ x2) <:+: a ++ (b ++ (c ++ (d ++ (e ++ (x1 ++ (x2 ++ r)))))) :=
  ⟨a ++ (b ++ (c ++ (d ++ e))), r, by simp [List.append_assoc]⟩

theorem texOf_decomp (r : FitResult) :
    (texOf r).data = tikzPart1.data ++ ((ptsBlock r.data).data ++ (tikzPart2.data ++
      ((ptsBlock (curvePoints r)).data ++ (tikzPart3.data ++
      ((fmtPt (r.a_eq, yBottom r)).data ++ ((fmtPt (r.a_eq, yTop r)).data ++
      (tikzPart4.data ++ ((fmtFixed 4 r.a_eq).data ++ tikzPart5.data)))))))) := by
  rw [texOf]
  exact data_append10 tikzPart1 (ptsBlock r.data) tikzPart2 (ptsBlock (curvePoints r))
    tikzPart3 (fmtPt (r.a_eq, yBottom r)) (fmtPt (r.a_eq, yTop r)) tikzPart4
    (fmtFixed 4 r.a_eq) tikzPart5

theorem ptsBlock_data_infix_texOf (r : FitResult) :
    (ptsBlock r.data).data <:+: (texOf r).data := by
  rw [texOf_decomp]
  exact infix_pos2 _ _ _

theorem curveBlock_data_infix_texOf (r : FitResult) :
    (ptsBlock (curvePoints r)).data <:+: (texOf r).data := by
  rw [texOf_decomp]
  exact infix_pos4 _ _ _ _ _

theorem vertical_data_infix_texOf (r : FitResult) :
    ((fmtPt (r.a_eq, yBottom r)).data ++ (fmtPt (r.a_eq, yTop r)).data) <:+: (texOf r).data := by
  rw [texOf_decomp]
  exact infix_pos6_pair _ _ _ _ _ _ _ _

theorem curvePoints_length (r : FitResult) : (curvePoints r).length = 100 := by
  simp [curvePoints, List.length_map, linspace_length]

theorem curvePoints_on_curve (r : FitResult) :
    ∀ p ∈ curvePoints r, p.2 = polyval r.coeffs p.1 := by
  intro p hp
  simp only [curvePoints, List.mem_map] at hp
  obtain ⟨i, hi, rfl⟩ := hp
  obtain ⟨q, hq, rfl⟩ := hi
  have hlen : (gridOf r.data).length = 1000 := by
    rw [gridOf_eq]; exact linspace_length _ _ _
  rw [hlen] at hq
  have hqb := linspace_bounds 0 (((1000 : ℕ) : ℚ) - 1) 100 (by norm_num) (by norm_num) q hq
  have hq999 : ⌊q⌋.toNat < 1000 := by
    have h1 : q ≤ 999 := by
      have := hqb.2
      norm_num at this
      linarith
    have h2 : ⌊q⌋ ≤ 999 := by
      have := Int.floor_le_floor h1
      simpa using this
    omega
  have hilt : ⌊q⌋.toNat < (gridOf r.data).length := by rw [hlen]; exact hq999
  show ((gridOf r.data).map (polyval r.coeffs)).getD ⌊q⌋.toNat 0 =
    polyval r.coeffs ((gridOf r.data).getD ⌊q⌋.toNat 0)
  rw [List.getD_eq_getElem _ _ (by rw [List.length_map]; exact hilt),
    List.getD_eq_getElem _ _ hilt]
  exact List.getElem_map _

theorem writtenFiles_success (dir : List (String × String)) (h : analyzeSuccess dir = true) :
    writtenFiles dir = [(("../assets/lattice_optimization.tex"), texOf (resultOf dir))] := by
  obtain ⟨pairs, hc, hne, ha, hr⟩ := analyze_success_spec dir h
  unfold writtenFiles
  rw [ha, hr]

/-- Claim C4: a successful analysis writes to `../assets/lattice_optimization.tex`
a TikZ picture containing every calculated point at 6 decimal places, 100
subsampled points of the fitted curve, and the vertical dashed line at the
equilibrium parameter from `y_min - 0.1*range` to `y_max + 0.1*range`. -/
theorem claim_C4 (dir : List (String × String)) (h : analyzeSuccess dir = true) :
    writtenFiles dir = [(("../assets/lattice_optimization.tex"), texOf (resultOf dir))] ∧
    (∀ p ∈ (resultOf dir).data, (fmtPt p).data <:+: (texOf (resultOf dir)).data) ∧
    (curvePoints (resultOf dir)).length = 100 ∧
    (∀ p ∈ curvePoints (resultOf dir), p.2 = polyval (resultOf dir).coeffs p.1 ∧
      (fmtPt p).data <:+: (texOf (resultOf dir)).data) ∧
    ((fmtPt ((resultOf dir).a_eq, yBottom (resultOf dir))).data ++
      (fmtPt ((resultOf dir).a_eq, yTop (resultOf dir))).data) <:+:
      (texOf (resultOf dir)).data := by
  refine ⟨writtenFiles_success dir h, ?_, curvePoints_length _, ?_, vertical_data_infix_texOf _⟩
  · intro p hp
    exact (fmtPt_mem_block _ p hp).trans (ptsBlock_data_infix_texOf _)
  · intro p hp
    exact ⟨curvePoints_on_curve _ p hp,
      (fmtPt_mem_block _ p hp).trans (curveBlock_data_infix_texOf _)⟩

/-- Witness instantiating claim C4 on the concrete directory `dirA`. -/
theorem claim_C4_witness :
    analyzeSuccess dirA = true ∧
    (writtenFiles dirA = [(("../assets/lattice_optimization.tex"), texOf (resultOf dirA))] ∧
    (∀ p ∈ (resultOf dirA).data, (fmtPt p).data <:+: (texOf (resultOf dirA)).data) ∧
    (curvePoints (resultOf dirA)).length = 100 ∧
    (∀ p ∈ curvePoints (resultOf dirA), p.2 = polyval (resultOf dirA).coeffs p.1 ∧
      (fmtPt p).data <:+: (texOf (resultOf dirA)).data) ∧
    ((fmtPt ((resultOf dirA).a_eq, yBottom (resultOf dirA))).data ++
      (fmtPt ((resultOf dirA).a_eq, yTop (resultOf dirA))).data) <:+:
      (texOf (resultOf dirA)).data) :=
  ⟨by decide, claim_C4 dirA (by decide)⟩
